import Mathlib

/-!
Verification development for the rag-chatbot repository.

The frontend definitions below are shallow embeddings of the TypeScript
sources under `frontend/src` (the Zustand chat store, the chat page's
streaming consumer `handleSend`, and the `ChatInput` submit handler).
Backend pipeline components (Retriever, Reranker, Token Budget Guard,
answer assembly) are not present in the sources and are modelled from the
specification, in the `Backend` namespace, with doc comments marking them
as such.
-/

namespace RagChat

/-- Message author role, mirroring the `role: "user" | "assistant"` union in
`frontend/src/lib/store.ts`. -/
inductive Role
  | user
  | assistant
  deriving DecidableEq

/-- The `Citation` interface of `frontend/src/lib/store.ts`. Scores are
modelled as rationals. -/
structure Citation where
  index : Nat
  doc_id : String
  doc_name : String
  page_number : Option Nat
  snippet : String
  source_url : Option String
  score : ℚ
  deriving DecidableEq

/-- The `Message` interface of `frontend/src/lib/store.ts`; optional fields
become `Option`. -/
structure Message where
  id : String
  role : Role
  content : String
  citations : Option (List Citation)
  confidence : Option String
  feedback : Option String
  isStreaming : Option Bool
  deriving DecidableEq

/-- The `updateLastAssistant` action of the chat store
(`frontend/src/lib/store.ts`): copies the message list and, when the last
message exists and has the assistant role, replaces its `content` field. -/
def updateLastAssistant (msgs : List Message) (content : String) : List Message :=
  match msgs.getLast? with
  | none => msgs
  | some last =>
    if last.role = Role.assistant then
      msgs.dropLast ++ [{ last with content := content }]
    else msgs

/-- A parsed server-sent event as consumed by `handleSend` in
`frontend/src/app/chat/page.tsx`: the loop inspects `chunk.type` and reacts
to `"content"` and `"done"`, ignoring anything else (`other`). -/
inductive StreamEvent
  | content (text : String)
  | done (citations : Option (List Citation))
  | other
  deriving DecidableEq

/-- The confidence expression of the `done` branch in
`frontend/src/app/chat/page.tsx` line 67:
`chunk.citations?.length > 0 ? "high" : "low"` (an absent citations field
compares as not greater than zero). -/
def doneConfidence (citations : Option (List Citation)) : String :=
  match citations with
  | some l => if 0 < l.length then "high" else "low"
  | none => "low"

/-- The `done`-branch state update of `handleSend`
(`frontend/src/app/chat/page.tsx` lines 59-72): when the last message is an
assistant message, overwrite its content with the accumulated text, attach
`chunk.citations || []`, set the confidence label and clear the streaming
flag. -/
def applyDone (msgs : List Message) (fullContent : String)
    (citations : Option (List Citation)) : List Message :=
  match msgs.getLast? with
  | none => msgs
  | some last =>
    if last.role = Role.assistant then
      msgs.dropLast ++ [{ last with
        content := fullContent,
        citations := some (citations.getD []),
        confidence := some (doneConfidence citations),
        isStreaming := some false }]
    else msgs

/-- The mutable state touched by the `handleSend` streaming loop: the chat
store's message list and the local `fullContent` accumulator. -/
structure PageState where
  messages : List Message
  fullContent : String
  deriving DecidableEq

/-- One iteration of the `for await` loop in `handleSend`
(`frontend/src/app/chat/page.tsx` lines 53-74). -/
def stepEvent (s : PageState) (e : StreamEvent) : PageState :=
  match e with
  | .content c =>
    let full := s.fullContent ++ c
    ⟨updateLastAssistant s.messages full, full⟩
  | .done cits => ⟨applyDone s.messages s.fullContent cits, s.fullContent⟩
  | .other => s

/-- The `handleSend` function of `frontend/src/app/chat/page.tsx`, embedded
over the list of stream events yielded (in arrival order) by
`chatApi.stream`: append the user message, append an empty streaming
assistant message, then fold the loop body over the events. -/
def handleSendModel (prev : List Message) (userMsgId assistantMsgId message : String)
    (events : List StreamEvent) : List Message :=
  (events.foldl stepEvent
    ⟨(prev ++ [⟨userMsgId, Role.user, message, none, none, none, none⟩]) ++
      [⟨assistantMsgId, Role.assistant, "", none, none, none, some true⟩], ""⟩).messages

/-- Concatenation, in order, of the `content` fields of the content events
of a stream. -/
def joinContents : List StreamEvent → String
  | [] => ""
  | .content c :: es => c ++ joinContents es
  | .done _ :: es => joinContents es
  | .other :: es => joinContents es

/-- JavaScript's `String.prototype.trim`: drop whitespace from both ends of
the string. -/
def jsTrim (s : String) : String :=
  ⟨((s.data.dropWhile Char.isWhitespace).reverse.dropWhile Char.isWhitespace).reverse⟩

/-- The `handleSubmit` function of
`frontend/src/components/ChatInput.tsx` lines 22-28, as a pure function
from the input state (`message`, `disabled`) to the optional `onSend`
payload and the new input field state; `!trimmed` in the source is the
emptiness test on the trimmed string. -/
def handleSubmit (message : String) (disabled : Bool) : Option String × String :=
  let trimmed := jsTrim message
  if trimmed.isEmpty || disabled then (none, message)
  else (some trimmed, "")

/-- The `handleKeyDown` function of
`frontend/src/components/ChatInput.tsx` lines 30-35: an Enter keypress
without shift delegates to `handleSubmit`, anything else leaves the state
alone. -/
def handleKeyDown (key : String) (shiftKey : Bool) (message : String)
    (disabled : Bool) : Option String × String :=
  if key = "Enter" && !shiftKey then handleSubmit message disabled
  else (none, message)

/-- The confidence policy as the specification's words state it (§4.5):
`high` if at least one citation has score at least 1/2, `medium` if the
best score lies in [1/4, 1/2), `low` otherwise. Written from the spec, for
comparison against the code's `doneConfidence`. -/
def specConfidenceBands (cits : List Citation) : String :=
  if cits.any (fun c => decide ((1:ℚ)/2 ≤ c.score)) then "high"
  else if cits.any (fun c => decide ((1:ℚ)/4 ≤ c.score)) then "medium"
  else "low"

namespace Backend

/-- Modelled from the spec: the `Chunk` record of §3. The backend sources
are not under the frontend tree; the data model follows the spec's field
list, with embeddings as rational vectors. -/
structure Chunk where
  id : Nat
  document_id : Nat
  organization_id : Nat
  text : String
  embedding : List ℚ
  page_number : Option Nat
  source_url : Option String
  chunk_index : Nat
  deriving DecidableEq

/-- Modelled from the spec: the `RetrievedCandidate` record of §3, a chunk
paired with its similarity score. -/
structure RetrievedCandidate where
  chunk : Chunk
  similarity_score : ℚ
  deriving DecidableEq

/-- Descending-similarity order used by the Retriever's output. -/
def simDesc (a b : RetrievedCandidate) : Prop :=
  b.similarity_score ≤ a.similarity_score

instance : DecidableRel simDesc :=
  fun a b => inferInstanceAs (Decidable (b.similarity_score ≤ a.similarity_score))

instance : IsTotal RetrievedCandidate simDesc :=
  ⟨fun a b => le_total b.similarity_score a.similarity_score⟩

instance : IsTrans RetrievedCandidate simDesc :=
  ⟨fun _ _ _ hab hbc => le_trans hbc hab⟩

/-- Modelled from the spec: the Retriever (§4.1), whose backend source is
not under the frontend tree. Operating on the `(chunk, similarity)` pairs
returned by the Chunk Index collaborator (§6), it discards candidates below
`similarity_threshold` and returns up to `top_k` candidates ordered by
descending similarity. -/
def retrieve (indexResult : List RetrievedCandidate) (similarity_threshold : ℚ)
    (top_k : Nat) : List RetrievedCandidate :=
  (((indexResult.filter
      (fun c => decide (similarity_threshold ≤ c.similarity_score))).insertionSort
    simDesc).take top_k)

/-- Modelled from the spec: a reranked candidate (`RankedCandidate` of §3)
together with its original retrieval position, which the spec's stable-sort
requirement (§4.2) uses to break ties. -/
structure ScoredCandidate where
  cand : RetrievedCandidate
  rerank_score : ℚ
  retrieval_pos : Nat
  deriving DecidableEq

/-- The Reranker's order (§4.2): descending rerank score, ties broken by
original retrieval position. -/
def rankOrder (a b : ScoredCandidate) : Prop :=
  b.rerank_score < a.rerank_score ∨
    (a.rerank_score = b.rerank_score ∧ a.retrieval_pos ≤ b.retrieval_pos)

instance : DecidableRel rankOrder :=
  fun a b =>
    inferInstanceAs (Decidable (b.rerank_score < a.rerank_score ∨
      (a.rerank_score = b.rerank_score ∧ a.retrieval_pos ≤ b.retrieval_pos)))

instance : IsTotal ScoredCandidate rankOrder := by
  constructor
  intro a b
  rcases lt_trichotomy a.rerank_score b.rerank_score with h | h | h
  · exact Or.inr (Or.inl h)
  · rcases le_total a.retrieval_pos b.retrieval_pos with hp | hp
    · exact Or.inl (Or.inr ⟨h, hp⟩)
    · exact Or.inr (Or.inr ⟨h.symm, hp⟩)
  · exact Or.inl (Or.inl h)

instance : IsTrans ScoredCandidate rankOrder := by
  constructor
  intro a b c hab hbc
  rcases hab with hab | ⟨hab, hab'⟩
  · rcases hbc with hbc | ⟨hbc, _⟩
    · exact Or.inl (lt_trans hbc hab)
    · exact Or.inl (hbc ▸ hab)
  · rcases hbc with hbc | ⟨hbc, hbc'⟩
    · exact Or.inl (by rw [hab]; exact hbc)
    · exact Or.inr ⟨hab.trans hbc, le_trans hab' hbc'⟩

/-- Modelled from the spec: the Reranker's scoring pass (§4.2) — every
`(query, chunk.text)` pair is scored independently by the relevance model
`rel`, and each candidate keeps its original retrieval position. -/
def rerankScored (rel : String → String → ℚ) (query : String)
    (cands : List RetrievedCandidate) : List ScoredCandidate :=
  cands.enum.map (fun p => ⟨p.2, rel query p.2.chunk.text, p.1⟩)

/-- Modelled from the spec: the Reranker's filter (§4.2) — candidates
scoring below `rerank_threshold` are dropped. -/
def rerankSurvivors (rel : String → String → ℚ) (query : String)
    (rerank_threshold : ℚ) (cands : List RetrievedCandidate) : List ScoredCandidate :=
  (rerankScored rel query cands).filter
    (fun c => decide (rerank_threshold ≤ c.rerank_score))

/-- Modelled from the spec: the Reranker (§4.2), whose backend source is not
under the frontend tree. Survivors are sorted descending by score with ties
broken by original retrieval order, then truncated to `final_top_n`. -/
def rerank (rel : String → String → ℚ) (query : String) (rerank_threshold : ℚ)
    (final_top_n : Nat) (cands : List RetrievedCandidate) : List ScoredCandidate :=
  ((rerankSurvivors rel query rerank_threshold cands).insertionSort rankOrder).take
    final_top_n

/-- Modelled from the spec: the `TokenUsageCounter` state of §3 for one
organization (daily and monthly counters). -/
structure OrgUsage where
  tokens_used_today : Nat
  tokens_used_month : Nat
  deriving DecidableEq

/-- Modelled from the spec: the organization's configured budgets (§4.6). -/
structure Budgets where
  daily_budget : Nat
  monthly_budget : Nat
  deriving DecidableEq

/-- Modelled from the spec: the terminal success payload of a Generation
Gateway stream (§4.4): final text plus reported token counts. -/
structure GenOutcome where
  final_text : String
  tokens_in : Nat
  tokens_out : Nat
  deriving DecidableEq

/-- Modelled from the spec: the `BudgetExceeded` error of §4.6. -/
inductive BudgetError
  | budgetExceeded
  deriving DecidableEq

/-- Modelled from the spec: the Token Budget Guard's post-commit (§4.6) —
atomically add the request's actual `tokens_in + tokens_out` to both
counters. -/
def commitUsage (u : OrgUsage) (tokens_in tokens_out : Nat) : OrgUsage :=
  ⟨u.tokens_used_today + (tokens_in + tokens_out),
   u.tokens_used_month + (tokens_in + tokens_out)⟩

/-- Modelled from the spec: the Token Budget Guard's pre-check (§4.6) —
`tokens_used_today + estimate ≤ daily_budget` and the analogous monthly
check. -/
def precheckOk (u : OrgUsage) (b : Budgets) (estimate : Nat) : Bool :=
  decide (u.tokens_used_today + estimate ≤ b.daily_budget) &&
    decide (u.tokens_used_month + estimate ≤ b.monthly_budget)

/-- Modelled from the spec: a guarded generation call (§4.6) — on a failing
pre-check raise `BudgetExceeded` and make no generation call; on success run
the generation and commit the actual usage. -/
def guardedGenerate (u : OrgUsage) (b : Budgets) (estimate : Nat)
    (run : Unit → GenOutcome) : Except BudgetError (GenOutcome × OrgUsage) :=
  if precheckOk u b estimate then
    Except.ok (run (), commitUsage u (run ()).tokens_in (run ()).tokens_out)
  else Except.error BudgetError.budgetExceeded

/-- Modelled from the spec: the confidence labels of §3. -/
inductive Confidence
  | high
  | medium
  | low
  | none
  deriving DecidableEq

/-- Modelled from the spec: the `GeneratedAnswer` record of §3. -/
structure GeneratedAnswer where
  text : String
  citations : List Citation
  confidence : Confidence
  tokens_in : Nat
  tokens_out : Nat
  deriving DecidableEq

/-- Modelled from the spec: the fixed "insufficient information" answer text
of §4.5's decline path (the exact wording is not given by the spec; any
fixed string models it). -/
def insufficientInfoText : String :=
  "The available documents do not contain enough information to answer this question."

/-- Modelled from the spec: the post-reranking stage of the pipeline (§2 and
§4.5). When no candidates survive, generation is skipped entirely and the
fixed insufficient-information answer is returned with empty citations,
confidence `low`, zero tokens charged and the usage counters untouched;
otherwise the Generation Gateway (`generate`) runs, the Citation Mapper
(`mapCitations`) builds the citation set and confidence, and actual usage is
committed. The final component counts Generation Gateway invocations. -/
def answerQuery (generate : List ScoredCandidate → GenOutcome)
    (mapCitations : String → List ScoredCandidate → List Citation × Confidence)
    (ranked : List ScoredCandidate) (usage : OrgUsage) :
    GeneratedAnswer × OrgUsage × Nat :=
  if ranked.isEmpty then
    (⟨insufficientInfoText, [], Confidence.low, 0, 0⟩, usage, 0)
  else
    let g := generate ranked
    let mc := mapCitations g.final_text ranked
    (⟨g.final_text, mc.1, mc.2, g.tokens_in, g.tokens_out⟩,
      commitUsage usage g.tokens_in g.tokens_out, 1)

end Backend

/-! ### Helper lemmas about the streaming consumer -/

lemma updateLastAssistant_concat (init : List Message) (a : Message)
    (ha : a.role = Role.assistant) (c : String) :
    updateLastAssistant (init ++ [a]) c = init ++ [{ a with content := c }] := by
  simp [updateLastAssistant, List.getLast?_concat, ha]

lemma applyDone_concat (init : List Message) (a : Message)
    (ha : a.role = Role.assistant) (full : String) (cits : Option (List Citation)) :
    applyDone (init ++ [a]) full cits
      = init ++ [{ a with
          content := full,
          citations := some (cits.getD []),
          confidence := some (doneConfidence cits),
          isStreaming := some false }] := by
  simp [applyDone, List.getLast?_concat, ha]

lemma foldl_stepEvent_shape (es : List StreamEvent) (init : List Message) (a : Message)
    (ha : a.role = Role.assistant) (full : String) :
    ∃ a', List.foldl stepEvent ⟨init ++ [a], full⟩ es
        = ⟨init ++ [a'], full ++ joinContents es⟩ ∧ a'.role = Role.assistant := by
  induction es generalizing a full with
  | nil => exact ⟨a, by simp [joinContents], ha⟩
  | cons e t ih =>
    cases e with
    | content c =>
      obtain ⟨a', h1, h2⟩ := ih { a with content := full ++ c } ha (full ++ c)
      refine ⟨a', ?_, h2⟩
      rw [List.foldl_cons]
      have hstep : stepEvent ⟨init ++ [a], full⟩ (.content c)
          = ⟨init ++ [{ a with content := full ++ c }], full ++ c⟩ := by
        simp [stepEvent, updateLastAssistant_concat init a ha]
      rw [hstep, h1, joinContents, String.append_assoc]
    | done cits =>
      obtain ⟨a', h1, h2⟩ := ih { a with
        content := full,
        citations := some (cits.getD []),
        confidence := some (doneConfidence cits),
        isStreaming := some false } ha full
      refine ⟨a', ?_, h2⟩
      rw [List.foldl_cons]
      have hstep : stepEvent ⟨init ++ [a], full⟩ (.done cits)
          = ⟨init ++ [{ a with
              content := full,
              citations := some (cits.getD []),
              confidence := some (doneConfidence cits),
              isStreaming := some false }], full⟩ := by
        simp [stepEvent, applyDone_concat init a ha]
      rw [hstep, h1, joinContents]
    | other =>
      obtain ⟨a', h1, h2⟩ := ih a ha full
      refine ⟨a', ?_, h2⟩
      rw [List.foldl_cons]
      have hstep : stepEvent ⟨init ++ [a], full⟩ .other = ⟨init ++ [a], full⟩ := rfl
      rw [hstep, h1, joinContents]

lemma handleSendModel_done_getLast (prev : List Message) (uid aid message : String)
    (ds : List StreamEvent) (cits : Option (List Citation)) :
    ∃ a' : Message,
      (handleSendModel prev uid aid message (ds ++ [StreamEvent.done cits])).getLast?
        = some { a' with
            content := joinContents ds,
            citations := some (cits.getD []),
            confidence := some (doneConfidence cits),
            isStreaming := some false }
      ∧ a'.role = Role.assistant := by
  unfold handleSendModel
  rw [List.foldl_append]
  obtain ⟨a', h1, h2⟩ := foldl_stepEvent_shape ds
    (prev ++ [⟨uid, Role.user, message, none, none, none, none⟩])
    ⟨aid, Role.assistant, "", none, none, none, some true⟩ rfl ""
  rw [h1, List.foldl_cons, List.foldl_nil]
  have hstep : stepEvent
      ⟨(prev ++ [⟨uid, Role.user, message, none, none, none, none⟩]) ++ [a'],
        "" ++ joinContents ds⟩ (.done cits)
      = ⟨(prev ++ [⟨uid, Role.user, message, none, none, none, none⟩]) ++ [{ a' with
          content := "" ++ joinContents ds,
          citations := some (cits.getD []),
          confidence := some (doneConfidence cits),
          isStreaming := some false }], "" ++ joinContents ds⟩ := by
    simp only [stepEvent]
    rw [applyDone_concat _ a' h2]
  rw [hstep]
  refine ⟨a', ?_, h2⟩
  have hjoin : "" ++ joinContents ds = joinContents ds := rfl
  rw [List.getLast?_concat, hjoin]

lemma doneConfidence_eq (cits : Option (List Citation)) :
    doneConfidence cits = if (cits.getD []).isEmpty then "low" else "high" := by
  cases cits with
  | none => rfl
  | some l => cases l <;> simp [doneConfidence]

/-! ### Claim theorems for the chat page and stream consumer -/

/-- Claim C3 (confirmed): for every streamed chat request whose event
sequence terminates in a `done` event, the final assistant message text
equals the concatenation, in arrival order, of the `content` fields of all
content events received before that terminal event — no delta reordered,
duplicated, or dropped by the stream consumer. -/
theorem stream_consumer_concatenates_deltas (prev : List Message)
    (uid aid message : String) (ds : List StreamEvent)
    (cits : Option (List Citation)) :
    ((handleSendModel prev uid aid message
        (ds ++ [StreamEvent.done cits])).getLast?).map Message.content
      = some (joinContents ds) := by
  obtain ⟨a', h1, _⟩ := handleSendModel_done_getLast prev uid aid message ds cits
  rw [h1, Option.map_some']

/-- Claim C1, amended (corrected): for every completed (non-short-circuited)
chat response, the confidence label shown for the assistant message is
`high` exactly when the response's final citation set is non-empty and `low`
when it is empty, irrespective of the citation scores; in particular a
response whose only citation has score 0.63 is labelled `high`. -/
theorem confidence_label_from_citation_presence (prev : List Message)
    (uid aid message : String) (ds : List StreamEvent)
    (cits : Option (List Citation)) :
    ((handleSendModel prev uid aid message
        (ds ++ [StreamEvent.done cits])).getLast?).map
        (fun m => (m.citations, m.confidence))
      = some (some (cits.getD []),
          some (if (cits.getD []).isEmpty then "low" else "high")) := by
  obtain ⟨a', h1, _⟩ := handleSendModel_done_getLast prev uid aid message ds cits
  rw [h1, Option.map_some', doneConfidence_eq]

/-- A citation whose score 0 lies strictly below every band boundary of the
spec's §4.5 confidence policy. -/
def zeroScoreCitation : Citation :=
  ⟨1, "doc-1", "Handbook", none, "snippet text", none, 0⟩

/-- Claim C1 counterexample: a completed response whose only citation has
score 0 is labelled `high` by the code (`citations?.length > 0`), while the
claim's score bands require `low` for a best score below 1/4. -/
theorem confidence_bands_counterexample :
    ((handleSendModel [] "u1" "a1" "q"
        [StreamEvent.content "Answer [1]",
         StreamEvent.done (some [zeroScoreCitation])]).getLast?).map
        Message.confidence = some (some "high")
    ∧ specConfidenceBands [zeroScoreCitation] = "low"
    ∧ ("high" : String) ≠ "low" := by
  refine ⟨by decide, ?_, by decide⟩
  simp [specConfidenceBands, zeroScoreCitation]
  norm_num

/-- Claim C2 (confirmed): the confidence label is a deterministic function
of the final citation set alone — two completed chat responses with equal
final citation sets carry equal confidence labels. -/
theorem confidence_deterministic_in_citation_set
    (p1 : List Message) (u1 a1 q1 : String) (es1 : List StreamEvent)
    (c1 : Option (List Citation))
    (p2 : List Message) (u2 a2 q2 : String) (es2 : List StreamEvent)
    (c2 : Option (List Citation)) (m1 m2 : Message)
    (h1 : (handleSendModel p1 u1 a1 q1 (es1 ++ [StreamEvent.done c1])).getLast?
        = some m1)
    (h2 : (handleSendModel p2 u2 a2 q2 (es2 ++ [StreamEvent.done c2])).getLast?
        = some m2)
    (hc : m1.citations = m2.citations) :
    m1.confidence = m2.confidence := by
  obtain ⟨b1, hb1, _⟩ := handleSendModel_done_getLast p1 u1 a1 q1 es1 c1
  obtain ⟨b2, hb2, _⟩ := handleSendModel_done_getLast p2 u2 a2 q2 es2 c2
  rw [h1] at hb1
  rw [h2] at hb2
  have e1 := Option.some.inj hb1
  have e2 := Option.some.inj hb2
  have hcit1 : m1.citations = some (c1.getD []) := by rw [e1]
  have hcit2 : m2.citations = some (c2.getD []) := by rw [e2]
  have hgd : c1.getD [] = c2.getD [] := by
    have := hcit1.symm.trans (hc.trans hcit2)
    exact Option.some.inj this
  have hconf1 : m1.confidence = some (doneConfidence c1) := by rw [e1]
  have hconf2 : m2.confidence = some (doneConfidence c2) := by rw [e2]
  rw [hconf1, hconf2, doneConfidence_eq, doneConfidence_eq, hgd]

/-- A concrete citation used by the determinism witness. -/
def c2Citation : Citation := ⟨1, "d", "Doc", none, "s", none, 1⟩

/-- Final assistant message of the determinism witness's first run. -/
def c2Msg1 : Message :=
  ⟨"a1", Role.assistant, "Hello [1]", some [c2Citation], some "high", none, some false⟩

/-- Final assistant message of the determinism witness's second run. -/
def c2Msg2 : Message :=
  ⟨"a2", Role.assistant, "Hi [1]", some [c2Citation], some "high", none, some false⟩

/-- Witness for claim C2: two concrete completed runs with different delta
sequences but equal citation sets receive equal confidence labels. -/
theorem confidence_deterministic_in_citation_set_witness :
    (handleSendModel [] "u1" "a1" "q1"
        ([StreamEvent.content "Hello [1]"]
          ++ [StreamEvent.done (some [c2Citation])])).getLast? = some c2Msg1
    ∧ (handleSendModel [] "u2" "a2" "q2"
        ([StreamEvent.content "Hi ", StreamEvent.content "[1]"]
          ++ [StreamEvent.done (some [c2Citation])])).getLast? = some c2Msg2
    ∧ c2Msg1.citations = c2Msg2.citations
    ∧ c2Msg1.confidence = c2Msg2.confidence :=
  ⟨by decide, by decide, by decide,
    confidence_deterministic_in_citation_set
      [] "u1" "a1" "q1" [StreamEvent.content "Hello [1]"] (some [c2Citation])
      [] "u2" "a2" "q2" [StreamEvent.content "Hi ", StreamEvent.content "[1]"]
      (some [c2Citation]) c2Msg1 c2Msg2 (by decide) (by decide) (by decide)⟩

/-! ### Claim theorems for the chat input -/

lemma handleSubmit_eq (message : String) (disabled : Bool) :
    handleSubmit message disabled =
      if ((jsTrim message).isEmpty || disabled) = true then (none, message)
      else (some (jsTrim message), "") := rfl

/-- Claim C9 (confirmed): on submit (or Enter keypress, which delegates to
the same handler), `onSend` fires only when the component is enabled and the
whitespace-trimmed message is non-empty; it receives exactly the trimmed
message and the input state resets to the empty string; an empty or
whitespace-only message is never sent. -/
theorem chat_input_send_contract (message : String) (disabled : Bool) :
    (∀ s, (handleSubmit message disabled).1 = some s →
      disabled = false ∧ s = jsTrim message ∧ (jsTrim message).isEmpty = false
        ∧ (handleSubmit message disabled).2 = "")
    ∧ (((jsTrim message).isEmpty || disabled) = true →
        handleSubmit message disabled = (none, message))
    ∧ (∀ key shift s, (handleKeyDown key shift message disabled).1 = some s →
        (handleSubmit message disabled).1 = some s) := by
  by_cases hcond : ((jsTrim message).isEmpty || disabled) = true
  · refine ⟨?_, ?_, ?_⟩
    · intro s hs
      rw [handleSubmit_eq, if_pos hcond] at hs
      simp at hs
    · intro _
      rw [handleSubmit_eq, if_pos hcond]
    · intro key shift s hk
      unfold handleKeyDown at hk
      by_cases hke : (key = "Enter" && !shift) = true
      · rw [if_pos hke] at hk
        exact hk
      · rw [if_neg hke] at hk
        simp at hk
  · have hh : (jsTrim message).isEmpty = false ∧ disabled = false := by
      constructor
      · cases hemp : (jsTrim message).isEmpty with
        | false => rfl
        | true => exact absurd (by rw [hemp]; rfl) hcond
      · cases hd : disabled with
        | false => rfl
        | true => exact absurd (by rw [hd, Bool.or_true]) hcond
    refine ⟨?_, ?_, ?_⟩
    · intro s hs
      rw [handleSubmit_eq, if_neg hcond] at hs
      simp at hs
      exact ⟨hh.2, hs.symm, hh.1, by rw [handleSubmit_eq, if_neg hcond]⟩
    · intro hcond'
      exact absurd hcond' hcond
    · intro key shift s hk
      unfold handleKeyDown at hk
      by_cases hke : (key = "Enter" && !shift) = true
      · rw [if_pos hke] at hk
        exact hk
      · rw [if_neg hke] at hk
        simp at hk

/-- Witness for claim C9: submitting the enabled input "  hi  " sends
exactly "hi" and clears the field. -/
theorem chat_input_send_contract_witness :
    (handleSubmit "  hi  " false).1 = some "hi"
    ∧ (false = false ∧ "hi" = jsTrim "  hi  "
        ∧ (jsTrim "  hi  ").isEmpty = false
        ∧ (handleSubmit "  hi  " false).2 = "") :=
  ⟨by decide, (chat_input_send_contract "  hi  " false).1 "hi" (by decide)⟩

/-! ### Claim theorems for the chat store -/

/-- Claim C10 (confirmed): `updateLastAssistant` preserves the length of the
message list and every message before the last; when the last message is an
assistant message only its `content` field changes, and when the list is
empty or its last message is not an assistant message the list is returned
unchanged. -/
theorem update_last_assistant_frame (msgs : List Message) (c : String) :
    (updateLastAssistant msgs c).length = msgs.length
    ∧ (updateLastAssistant msgs c).dropLast = msgs.dropLast
    ∧ (msgs.getLast? = none → updateLastAssistant msgs c = msgs)
    ∧ (∀ m : Message, msgs.getLast? = some m → m.role ≠ Role.assistant →
        updateLastAssistant msgs c = msgs)
    ∧ (∀ m : Message, msgs.getLast? = some m → m.role = Role.assistant →
        updateLastAssistant msgs c = msgs.dropLast ++ [{ m with content := c }]) := by
  induction msgs using List.reverseRecOn with
  | nil => simp [updateLastAssistant]
  | append_singleton init lastm _ =>
    by_cases hr : lastm.role = Role.assistant
    · have he : updateLastAssistant (init ++ [lastm]) c
          = init ++ [{ lastm with content := c }] :=
        updateLastAssistant_concat init lastm hr c
      refine ⟨?_, ?_, ?_, ?_, ?_⟩
      · rw [he]
        simp
      · rw [he, List.dropLast_concat, List.dropLast_concat]
      · intro hnone
        rw [List.getLast?_concat] at hnone
        exact absurd hnone (by simp)
      · intro m hm hrole
        rw [List.getLast?_concat] at hm
        have hml := Option.some.inj hm
        exact absurd (hml ▸ hr) hrole
      · intro m hm _
        rw [List.getLast?_concat] at hm
        have hml := Option.some.inj hm
        rw [he, List.dropLast_concat, hml]
    · have he : updateLastAssistant (init ++ [lastm]) c = init ++ [lastm] := by
        simp [updateLastAssistant, List.getLast?_concat, hr]
      refine ⟨by rw [he], by rw [he], fun _ => he, fun _ _ _ => he, ?_⟩
      intro m hm hrole
      rw [List.getLast?_concat] at hm
      have hml := Option.some.inj hm
      exact absurd (hml ▸ hrole) hr

/-- Concrete user message for the store frame witness. -/
def c10User : Message := ⟨"u", Role.user, "q", none, none, none, none⟩

/-- Concrete assistant message for the store frame witness. -/
def c10Asst : Message := ⟨"a", Role.assistant, "old", none, none, none, some true⟩

/-- Witness for claim C10: with a concrete two-message list ending in an
assistant message, only that message's content is replaced. -/
theorem update_last_assistant_frame_witness :
    ([c10User, c10Asst].getLast? = some c10Asst)
    ∧ c10Asst.role = Role.assistant
    ∧ updateLastAssistant [c10User, c10Asst] "new"
        = [c10User, c10Asst].dropLast ++ [{ c10Asst with content := "new" }] :=
  ⟨by decide, by decide,
    (update_last_assistant_frame [c10User, c10Asst] "new").2.2.2.2 c10Asst
      (by decide) (by decide)⟩

/-! ### Claim theorems for the spec-modelled backend pipeline -/

/-- Claim C4 (confirmed, spec-modelled): when retrieval followed by
reranking yields zero candidates, the Generation Gateway is not invoked (the
invocation count is 0), the answer is the fixed insufficient-information
text with empty citations and confidence `low`, and the organization's
token usage counters are exactly unchanged. -/
theorem empty_rerank_short_circuit
    (generate : List Backend.ScoredCandidate → Backend.GenOutcome)
    (mapCitations : String → List Backend.ScoredCandidate → List Citation × Backend.Confidence)
    (rel : String → String → ℚ) (query : String) (rt st : ℚ) (n k : Nat)
    (indexResult : List Backend.RetrievedCandidate) (usage : Backend.OrgUsage)
    (h : Backend.rerank rel query rt n (Backend.retrieve indexResult st k) = []) :
    Backend.answerQuery generate mapCitations
        (Backend.rerank rel query rt n (Backend.retrieve indexResult st k)) usage
      = (⟨Backend.insufficientInfoText, [], Backend.Confidence.low, 0, 0⟩, usage, 0) := by
  rw [h]
  rfl

/-- Concrete generation function for the short-circuit witness. -/
def c4Generate : List Backend.ScoredCandidate → Backend.GenOutcome :=
  fun _ => ⟨"generated", 5, 7⟩

/-- Concrete citation mapper for the short-circuit witness. -/
def c4MapCitations : String → List Backend.ScoredCandidate → List Citation × Backend.Confidence :=
  fun _ _ => ([], Backend.Confidence.none)

/-- Concrete relevance model for the short-circuit witness. -/
def c4Rel : String → String → ℚ := fun _ _ => 1

/-- Witness for claim C4: with an empty chunk index nothing survives, so the
pipeline returns the fixed answer, charges nothing and never calls the
gateway. -/
theorem empty_rerank_short_circuit_witness :
    (Backend.rerank c4Rel "q" 0 3 (Backend.retrieve [] 0 5) = [])
    ∧ Backend.answerQuery c4Generate c4MapCitations
        (Backend.rerank c4Rel "q" 0 3 (Backend.retrieve [] 0 5)) ⟨42, 100⟩
      = (⟨Backend.insufficientInfoText, [], Backend.Confidence.low, 0, 0⟩,
          ⟨42, 100⟩, 0) :=
  ⟨rfl, empty_rerank_short_circuit c4Generate c4MapCitations c4Rel "q" 0 0 3 5 []
    ⟨42, 100⟩ rfl⟩

/-- Claim C5 (confirmed, spec-modelled): whenever a guarded generation
commits (the pre-check passed), the committed counters respect the budgets
up to the single in-flight overshoot tolerance, the amount by which the
request's actual usage exceeded its estimate. -/
theorem budget_invariant_after_commit (u : Backend.OrgUsage) (b : Backend.Budgets)
    (estimate : Nat) (run : Unit → Backend.GenOutcome) (g : Backend.GenOutcome)
    (u' : Backend.OrgUsage)
    (h : Backend.guardedGenerate u b estimate run = Except.ok (g, u')) :
    u'.tokens_used_today ≤ b.daily_budget + (g.tokens_in + g.tokens_out - estimate)
    ∧ u'.tokens_used_month ≤ b.monthly_budget + (g.tokens_in + g.tokens_out - estimate) := by
  unfold Backend.guardedGenerate at h
  by_cases hp : Backend.precheckOk u b estimate = true
  · rw [if_pos hp] at h
    injection h with hpair
    have hg : run () = g := congrArg Prod.fst hpair
    have hu : Backend.commitUsage u (run ()).tokens_in (run ()).tokens_out = u' :=
      congrArg Prod.snd hpair
    unfold Backend.precheckOk at hp
    simp only [Bool.and_eq_true, decide_eq_true_eq] at hp
    rw [← hu, hg]
    unfold Backend.commitUsage
    exact ⟨by simp; omega, by simp; omega⟩
  · rw [if_neg hp] at h
    exact absurd h (by simp)

/-- Concrete generation run for the budget witness. -/
def c5Run : Unit → Backend.GenOutcome := fun _ => ⟨"text", 4, 3⟩

/-- Witness for claim C5: a concrete passing pre-check (10+9 ≤ 100,
20+9 ≤ 1000) followed by a commit of 4+3 tokens lands within budget. -/
theorem budget_invariant_after_commit_witness :
    (Backend.guardedGenerate ⟨10, 20⟩ ⟨100, 1000⟩ 9 c5Run
        = Except.ok (⟨"text", 4, 3⟩, ⟨17, 27⟩))
    ∧ ((17:Nat) ≤ 100 + (4 + 3 - 9) ∧ (27:Nat) ≤ 1000 + (4 + 3 - 9)) :=
  ⟨rfl, budget_invariant_after_commit ⟨10, 20⟩ ⟨100, 1000⟩ 9 c5Run ⟨"text", 4, 3⟩
    ⟨17, 27⟩ rfl⟩

lemma foldl_commitUsage_today (l : List (Nat × Nat)) (u : Backend.OrgUsage) :
    (l.foldl (fun acc r => Backend.commitUsage acc r.1 r.2) u).tokens_used_today
      = u.tokens_used_today + (l.map (fun r => r.1 + r.2)).sum := by
  induction l generalizing u with
  | nil => simp
  | cons hd tl ih =>
    rw [List.foldl_cons, ih]
    simp [Backend.commitUsage]
    omega

/-- Claim C6 (confirmed, spec-modelled): the spec requires per-organization
commits to be atomic, so any concurrent execution of M completed requests
serializes to some permutation (schedule) of their atomic commits; under
every such schedule the post-state `tokens_used_today` equals the pre-state
plus the exact sum of the requests' `tokens_in + tokens_out` — no lost
updates. -/
theorem concurrent_commits_exact_sum (u : Backend.OrgUsage)
    (reqs sched : List (Nat × Nat)) (h : List.Perm reqs sched) :
    (sched.foldl (fun acc r => Backend.commitUsage acc r.1 r.2) u).tokens_used_today
      = u.tokens_used_today + (reqs.map (fun r => r.1 + r.2)).sum := by
  rw [foldl_commitUsage_today]
  rw [(h.map (fun r => r.1 + r.2)).sum_eq]

/-- Witness for claim C6: two concrete requests committed in swapped order
still add up exactly. -/
theorem concurrent_commits_exact_sum_witness :
    List.Perm [((1:Nat), (2:Nat)), (3, 4)] [(3, 4), (1, 2)]
    ∧ (([((3:Nat), (4:Nat)), (1, 2)].foldl
          (fun acc r => Backend.commitUsage acc r.1 r.2)
          ⟨5, 6⟩).tokens_used_today
        = (⟨5, 6⟩ : Backend.OrgUsage).tokens_used_today
          + ([((1:Nat), (2:Nat)), (3, 4)].map (fun r => r.1 + r.2)).sum) :=
  ⟨List.Perm.swap _ _ _,
    concurrent_commits_exact_sum ⟨5, 6⟩ _ _ (List.Perm.swap _ _ _)⟩

/-- Claim C7 (confirmed, spec-modelled): for every similarity threshold and
query-index result, every candidate returned by the Retriever scores at
least the threshold, the output is ordered by descending similarity, and its
length is at most `top_k`. -/
theorem retriever_contract (indexResult : List Backend.RetrievedCandidate)
    (t : ℚ) (k : Nat) :
    (∀ c ∈ Backend.retrieve indexResult t k, t ≤ c.similarity_score)
    ∧ (Backend.retrieve indexResult t k).Sorted Backend.simDesc
    ∧ (Backend.retrieve indexResult t k).length ≤ k := by
  have hsub : List.Sublist (Backend.retrieve indexResult t k)
      ((indexResult.filter
        (fun c => decide (t ≤ c.similarity_score))).insertionSort Backend.simDesc) := by
    unfold Backend.retrieve
    exact List.take_sublist _ _
  refine ⟨?_, ?_, ?_⟩
  · intro c hc
    have h1 := hsub.subset hc
    have h2 := (List.perm_insertionSort Backend.simDesc _).subset h1
    have h3 := (List.mem_filter.mp h2).2
    simpa using h3
  · show List.Pairwise Backend.simDesc (Backend.retrieve indexResult t k)
    exact List.Pairwise.sublist hsub (List.sorted_insertionSort Backend.simDesc _)
  · unfold Backend.retrieve
    rw [List.length_take]
    exact min_le_left _ _

/-- Concrete chunk for the Retriever witness. -/
def c7Chunk : Backend.Chunk := ⟨1, 1, 1, "alpha text", [1, 0], none, none, 0⟩

/-- Concrete retrieved candidate for the Retriever witness. -/
def c7Cand : Backend.RetrievedCandidate := ⟨c7Chunk, 2⟩

/-- Witness for claim C7: a concrete candidate above the threshold is
returned and satisfies the contract. -/
theorem retriever_contract_witness :
    c7Cand ∈ Backend.retrieve [c7Cand] 1 5
    ∧ (1:ℚ) ≤ c7Cand.similarity_score
    ∧ (Backend.retrieve [c7Cand] 1 5).length ≤ 5 :=
  ⟨by decide, (retriever_contract [c7Cand] 1 5).1 c7Cand (by decide),
    (retriever_contract [c7Cand] 1 5).2.2⟩

/-- Claim C8 (confirmed, spec-modelled): the Reranker's output consists
exactly of the candidates scoring at least `rerank_threshold`, truncated to
the first `final_top_n` of the descending stable order — stated both as an
exact characterization (the output is the `final_top_n`-prefix of a list
that is a permutation of the survivors and is sorted by the spec's order)
and as a domination law (every kept candidate precedes, in the spec's
order, every survivor that was cut) — the output is sorted by descending
rerank score, and survivors with equal scores keep their relative retrieval
order (stability). -/
theorem reranker_contract (rel : String → String → ℚ) (query : String) (t : ℚ)
    (n : Nat) (cands : List Backend.RetrievedCandidate) :
    (∀ c ∈ Backend.rerank rel query t n cands, t ≤ c.rerank_score)
    ∧ (∀ c ∈ Backend.rerank rel query t n cands,
        c ∈ Backend.rerankSurvivors rel query t cands)
    ∧ (Backend.rerank rel query t n cands).length
        = min n (Backend.rerankSurvivors rel query t cands).length
    ∧ ((Backend.rerankSurvivors rel query t cands).length ≤ n →
        List.Perm (Backend.rerank rel query t n cands)
          (Backend.rerankSurvivors rel query t cands))
    ∧ (∃ l : List Backend.ScoredCandidate,
        List.Perm l (Backend.rerankSurvivors rel query t cands)
        ∧ l.Pairwise Backend.rankOrder
        ∧ Backend.rerank rel query t n cands = l.take n)
    ∧ (∀ a ∈ Backend.rerank rel query t n cands,
        ∀ b ∈ Backend.rerankSurvivors rel query t cands,
          b ∉ Backend.rerank rel query t n cands → Backend.rankOrder a b)
    ∧ (Backend.rerank rel query t n cands).Sorted
        (fun a b => b.rerank_score ≤ a.rerank_score)
    ∧ (Backend.rerank rel query t n cands).Pairwise
        (fun a b => a.rerank_score = b.rerank_score →
          a.retrieval_pos < b.retrieval_pos) := by
  have hperm : List.Perm
      ((Backend.rerankSurvivors rel query t cands).insertionSort Backend.rankOrder)
      (Backend.rerankSurvivors rel query t cands) :=
    List.perm_insertionSort _ _
  have hsub : List.Sublist (Backend.rerank rel query t n cands)
      ((Backend.rerankSurvivors rel query t cands).insertionSort Backend.rankOrder) := by
    unfold Backend.rerank
    exact List.take_sublist _ _
  have hmem : ∀ c ∈ Backend.rerank rel query t n cands,
      c ∈ Backend.rerankSurvivors rel query t cands :=
    fun c hc => hperm.subset (hsub.subset hc)
  have hsorted : (Backend.rerank rel query t n cands).Pairwise Backend.rankOrder :=
    List.Pairwise.sublist hsub (List.sorted_insertionSort Backend.rankOrder _)
  have hposmap : (Backend.rerankScored rel query cands).map
      Backend.ScoredCandidate.retrieval_pos = List.range cands.length := by
    unfold Backend.rerankScored
    rw [List.map_map]
    have hcomp : (Backend.ScoredCandidate.retrieval_pos ∘
        fun p : Nat × Backend.RetrievedCandidate =>
          (⟨p.2, rel query p.2.chunk.text, p.1⟩ : Backend.ScoredCandidate))
        = Prod.fst := rfl
    rw [hcomp, List.enum_map_fst]
  have hnodup1 : ((Backend.rerankSurvivors rel query t cands).map
      Backend.ScoredCandidate.retrieval_pos).Nodup := by
    have hsubf : List.Sublist (Backend.rerankSurvivors rel query t cands)
        (Backend.rerankScored rel query cands) := List.filter_sublist _
    have hnodup0 : ((Backend.rerankScored rel query cands).map
        Backend.ScoredCandidate.retrieval_pos).Nodup := by
      rw [hposmap]
      exact List.nodup_range _
    exact List.Nodup.sublist (hsubf.map _) hnodup0
  have hnodup : ((Backend.rerank rel query t n cands).map
      Backend.ScoredCandidate.retrieval_pos).Nodup := by
    have h2 := ((hperm.map Backend.ScoredCandidate.retrieval_pos).nodup_iff).mpr hnodup1
    exact List.Nodup.sublist (hsub.map _) h2
  have hne : (Backend.rerank rel query t n cands).Pairwise
      (fun a b => a.retrieval_pos ≠ b.retrieval_pos) :=
    List.pairwise_map.mp hnodup
  have hout : Backend.rerank rel query t n cands
      = ((Backend.rerankSurvivors rel query t cands).insertionSort
          Backend.rankOrder).take n := rfl
  refine ⟨?_, hmem, ?_, ?_, ?_, ?_, ?_, ?_⟩
  · intro c hc
    have h1 := hmem c hc
    unfold Backend.rerankSurvivors at h1
    have h2 := (List.mem_filter.mp h1).2
    simpa using h2
  · unfold Backend.rerank
    rw [List.length_take, hperm.length_eq]
  · intro hle
    unfold Backend.rerank
    rw [List.take_of_length_le (by rw [hperm.length_eq]; exact hle)]
    exact hperm
  · exact ⟨(Backend.rerankSurvivors rel query t cands).insertionSort Backend.rankOrder,
      hperm, List.sorted_insertionSort Backend.rankOrder _, hout⟩
  · intro a ha b hb hbn
    have hpw : ((Backend.rerankSurvivors rel query t cands).insertionSort
        Backend.rankOrder).Pairwise Backend.rankOrder :=
      List.sorted_insertionSort Backend.rankOrder _
    have hsplit := List.take_append_drop n
      ((Backend.rerankSurvivors rel query t cands).insertionSort Backend.rankOrder)
    have hdom := (List.pairwise_append.mp (by rw [hsplit]; exact hpw)).2.2
    have hbL : b ∈ (Backend.rerankSurvivors rel query t cands).insertionSort
        Backend.rankOrder := hperm.mem_iff.mpr hb
    have hbor := List.mem_append.mp (by rw [hsplit]; exact hbL)
    rw [hout] at ha hbn
    rcases hbor with hbt | hbd
    · exact absurd hbt hbn
    · exact hdom a ha b hbd
  · show List.Pairwise (fun a b => b.rerank_score ≤ a.rerank_score)
      (Backend.rerank rel query t n cands)
    refine hsorted.imp ?_
    intro a b hr
    rcases hr with hlt | ⟨heq, _⟩
    · exact le_of_lt hlt
    · exact le_of_eq heq.symm
  · refine (hsorted.and hne).imp ?_
    intro a b hab heq
    rcases hab.1 with hlt | ⟨_, hle⟩
    · exact absurd (heq ▸ hlt) (lt_irrefl _)
    · exact lt_of_le_of_ne hle hab.2

/-- Concrete candidates for the Reranker witness: three candidates whose
rerank scores will be 3, 2 and 1, so that `final_top_n = 2` genuinely
truncates. -/
def c8Cands : List Backend.RetrievedCandidate :=
  [⟨⟨1, 1, 1, "alpha", [1], none, none, 0⟩, 2⟩,
   ⟨⟨2, 1, 1, "beta", [0], none, none, 1⟩, 2⟩,
   ⟨⟨3, 1, 1, "gamma", [0], none, none, 2⟩, 2⟩]

/-- Concrete relevance model for the Reranker witness: scores alpha 3,
beta 2, gamma 1. -/
def c8Rel : String → String → ℚ :=
  fun _ s => if s = "alpha" then 3 else if s = "beta" then 2 else 1

/-- The lowest-ranked kept candidate of the truncating Reranker witness run
(beta, score 2, retrieval position 1). -/
def c8Kept : Backend.ScoredCandidate :=
  ⟨⟨⟨2, 1, 1, "beta", [0], none, none, 1⟩, 2⟩, 2, 1⟩

/-- The survivor cut by truncation in the Reranker witness run (gamma,
score 1, retrieval position 2). -/
def c8Dropped : Backend.ScoredCandidate :=
  ⟨⟨⟨3, 1, 1, "gamma", [0], none, none, 2⟩, 2⟩, 1, 2⟩

/-- Witness for claim C8, exercising the truncating case: with three
survivors and `final_top_n = 2`, a kept candidate is in the output, the
cut survivor is not, and the kept one dominates the cut one in the
descending stable order — the output is the top-scored prefix. -/
theorem reranker_contract_witness :
    (c8Kept ∈ Backend.rerank c8Rel "q" 0 2 c8Cands)
    ∧ (c8Dropped ∈ Backend.rerankSurvivors c8Rel "q" 0 c8Cands)
    ∧ (c8Dropped ∉ Backend.rerank c8Rel "q" 0 2 c8Cands)
    ∧ Backend.rankOrder c8Kept c8Dropped :=
  ⟨by decide, by decide, by decide,
    (reranker_contract c8Rel "q" 0 2 c8Cands).2.2.2.2.2.1 c8Kept (by decide)
      c8Dropped (by decide) (by decide)⟩

end RagChat
